import Mathlib

/-!
Verification of the transaction pipeline of `dashboard.py` (online-retail
analytics dashboard).

The pipeline is embedded shallowly:
* a raw CSV row becomes `RawRecord` (the nullable `Customer ID` column is an
  `Option ℚ`, since pandas reads it as a float column with NaN for absent ids);
* timestamps are integers counting seconds since the Unix epoch, so that
  `pd.Timedelta(days=1)` is `86400` and `Timedelta.days` is floor division
  by `86400` (`Int.fdiv`);
* decimal amounts are `ℚ` (exact arithmetic in place of floats);
* each pandas operation used by the script (dropna, astype, groupby/agg,
  nunique, cumsum, sort_values, reindex, isin) is translated to the
  corresponding list operation.

The `MonthYear` helper column (`strftime` year-month bucket) is used only by
charts Q1/Q8, which no verified property mentions, so it is not carried in the
embedded record.
-/

/-- One parsed row of `online_retail_II.csv`, before cleaning.
`customerId` is `none` when the `Customer ID` cell is empty (NaN). -/
structure RawRecord where
  invoice : String
  stockCode : String
  description : String
  quantity : Int
  price : Rat
  /-- invoice timestamp, in seconds since the Unix epoch -/
  invoiceDate : Int
  customerId : Option Rat
  country : String
deriving DecidableEq, Repr

/-- A cleaned transaction: the surviving raw fields plus the derived columns
`TotalAmount`, `Hour` and `DayOfWeek` added by `load_data`
(`dashboard.py` lines 27-35). -/
structure CleanedTransaction where
  invoice : String
  stockCode : String
  description : String
  quantity : Int
  price : Rat
  invoiceDate : Int
  /-- `Customer ID` after `astype(float).astype(int).astype(str)` -/
  customerId : String
  country : String
  /-- `Quantity * Price`, computed before the Returns sign flip -/
  totalAmount : Rat
  hour : Int
  dayOfWeek : String
deriving DecidableEq, Repr

/-- Truncation toward zero, as numpy's float-to-int `astype` cast does. -/
def ratTruncToInt (q : Rat) : Int :=
  if 0 ≤ q then q.floor else q.ceil

/-- Week starting at Monday, as `pandas.Timestamp.day_name` yields. -/
def dayNames : List String :=
  ["Monday", "Tuesday", "Wednesday", "Thursday", "Friday", "Saturday", "Sunday"]

/-- Day-of-week name of an epoch-seconds timestamp.  Epoch day 0
(1970-01-01) was a Thursday, Monday-index 3. -/
def dayOfWeekName (t : Int) : String :=
  dayNames.getD ((t.fdiv 86400 + 3).emod 7).toNat ""

/-- Hour of day (0-23) of an epoch-seconds timestamp. -/
def hourOfDay (t : Int) : Int :=
  (t.fdiv 3600).emod 24

/-- Cleaning of one raw row whose customer id is present (`c`):
normalize the id, compute `TotalAmount = Quantity * Price` and the helper
columns (`dashboard.py` lines 28-35). -/
def cleanRow (r : RawRecord) (c : Rat) : CleanedTransaction :=
  { invoice := r.invoice
    stockCode := r.stockCode
    description := r.description
    quantity := r.quantity
    price := r.price
    invoiceDate := r.invoiceDate
    customerId := toString (ratTruncToInt c)
    country := r.country
    totalAmount := (r.quantity : Rat) * r.price
    hour := hourOfDay r.invoiceDate
    dayOfWeek := dayOfWeekName r.invoiceDate }

/-- `df.dropna(subset=[Customer ID])` followed by the derived columns:
rows with an absent customer id are dropped, the rest are cleaned
(`dashboard.py` lines 27-35). -/
def cleanRecords (rows : List RawRecord) : List CleanedTransaction :=
  rows.filterMap (fun r => r.customerId.map (cleanRow r))

/-- Sales partition: cleaned rows with `Quantity > 0` (`dashboard.py` line 38). -/
def salesOf (rows : List RawRecord) : List CleanedTransaction :=
  (cleanRecords rows).filter (fun t => 0 < t.quantity)

/-- Sign flip applied to the Returns partition: `Quantity` becomes its
absolute value; `TotalAmount` was computed earlier and keeps its sign
(`dashboard.py` line 40). -/
def absQuantity (t : CleanedTransaction) : CleanedTransaction :=
  { t with quantity := (t.quantity.natAbs : Int) }

/-- Cleaned rows with `Quantity < 0`, before the sign flip
(`dashboard.py` line 39). -/
def returnsRawOf (rows : List RawRecord) : List CleanedTransaction :=
  (cleanRecords rows).filter (fun t => t.quantity < 0)

/-- Returns partition: negative-quantity rows with `Quantity` made positive
(`dashboard.py` lines 39-40). -/
def returnsOf (rows : List RawRecord) : List CleanedTransaction :=
  (returnsRawOf rows).map absQuantity

/-- `load_data`: the input is `none` when the CSV file cannot be read
(`FileNotFoundError`), in which case two empty frames are returned;
otherwise the parsed rows are cleaned and partitioned
(`dashboard.py` lines 17-42). -/
def load_data (input : Option (List RawRecord)) :
    List CleanedTransaction × List CleanedTransaction :=
  match input with
  | none => ([], [])
  | some rows => (salesOf rows, returnsOf rows)

/-- The caller stops the dashboard when the Sales frame is empty
(`dashboard.py` lines 49-50). -/
def haltsAfterLoad (result : List CleanedTransaction × List CleanedTransaction) :
    Bool :=
  result.1.isEmpty

/-- Country filter applied by the sidebar: when `selected` is empty the
frames pass through unchanged, otherwise both frames are restricted to rows
whose `Country` is in `selected` (`Series.isin`, `dashboard.py` lines 63-68). -/
def filterByCountry (sales rets : List CleanedTransaction)
    (selected : List String) :
    List CleanedTransaction × List CleanedTransaction :=
  if selected.isEmpty then (sales, rets)
  else (sales.filter (fun t => selected.contains t.country),
        rets.filter (fun t => selected.contains t.country))

/-- `df_filtered[TotalAmount].sum()` (`dashboard.py` line 89). -/
def totalRevenue (sales : List CleanedTransaction) : Rat :=
  (sales.map (fun t => t.totalAmount)).sum

/-- `df_filtered[Invoice].nunique()`: number of distinct invoice identifiers
(`dashboard.py` line 90). -/
def totalOrders (sales : List CleanedTransaction) : Nat :=
  ((sales.map (fun t => t.invoice)).dedup).length

/-- `total_revenue / total_orders if total_orders > 0 else 0`
(`dashboard.py` line 91). -/
def avgOrderValue (sales : List CleanedTransaction) : Rat :=
  if 0 < totalOrders sales then totalRevenue sales / (totalOrders sales : Rat)
  else 0

/-- The three KPI metrics of the dashboard header
(`dashboard.py` lines 89-91). -/
def computeKPIs (sales : List CleanedTransaction) : Rat × Nat × Rat :=
  (totalRevenue sales, totalOrders sales, avgOrderValue sales)

/-- Group keys of `groupby(Customer ID)`, in first-occurrence order.
(pandas sorts group keys; the key order is immaterial to the properties
proved below: the RFM theorems are membership-based and the Pareto theorems
quantify over an arbitrary RFM frame, whose row order supplies the index
labels.  The evaluated examples use frames whose first-occurrence order
coincides with the sorted key order.) -/
def customersOf (sales : List CleanedTransaction) : List String :=
  (sales.map (fun t => t.customerId)).dedup

/-- The rows of one customer's group. -/
def custTxns (sales : List CleanedTransaction) (c : String) :
    List CleanedTransaction :=
  sales.filter (fun t => t.customerId == c)

/-- `InvoiceDate.max()` over a frame, in epoch seconds (0 on an empty frame,
where pandas would give NaT; `computeRFM` callers guard non-emptiness). -/
def maxInvoiceDate (txns : List CleanedTransaction) : Int :=
  ((txns.map (fun t => t.invoiceDate)).maximum).getD 0

/-- `snapshot_date = df_filtered[InvoiceDate].max() + pd.Timedelta(days=1)`
(`dashboard.py` line 170). -/
def snapshotDate (sales : List CleanedTransaction) : Int :=
  maxInvoiceDate sales + 86400

/-- `(snapshot_date - x.max()).days`: whole days of a timedelta, which
pandas computes as the floor of total seconds over 86400. -/
def timedeltaDays (seconds : Int) : Int :=
  seconds.fdiv 86400

/-- One row of the RFM frame (`dashboard.py` line 176). -/
structure RFMRow where
  customerId : String
  recency : Int
  frequency : Nat
  monetary : Rat
deriving DecidableEq, Repr

/-- The aggregations of one customer's group: days from the customer's
latest invoice to the snapshot date, distinct invoice count, and summed
`TotalAmount` (`dashboard.py` lines 171-175). -/
def rfmRowFor (sales : List CleanedTransaction) (c : String) : RFMRow :=
  { customerId := c
    recency := timedeltaDays (snapshotDate sales - maxInvoiceDate (custTxns sales c))
    frequency := ((custTxns sales c).map (fun t => t.invoice)).dedup.length
    monetary := ((custTxns sales c).map (fun t => t.totalAmount)).sum }

/-- The RFM aggregation, one row per customer of the filtered Sales frame
(`dashboard.py` lines 170-176). -/
def computeRFM (sales : List CleanedTransaction) : List RFMRow :=
  (customersOf sales).map (rfmRowFor sales)

/-- One row of the Pareto frame (`dashboard.py` lines 205-208). -/
structure ParetoRow where
  customerId : String
  monetary : Rat
  cumulativeRevenue : Rat
  revenuePct : Rat
  customerRankPct : Rat
deriving DecidableEq, Repr

/-- The RFM frame with its positional index labels 0..n-1 attached, as
`reset_index()` leaves them (`dashboard.py` line 175); `sort_values` keeps
these labels attached to their rows. -/
def withIndexLabels (rfm : List RFMRow) : List (Nat × RFMRow) :=
  rfm.enum

/-- `rfm.sort_values(by=Monetary, ascending=False)`: the labelled rows
reordered by `Monetary` descending, each keeping its pre-sort index label
(`dashboard.py` line 205). -/
def sortByMonetaryDesc (rows : List (Nat × RFMRow)) : List (Nat × RFMRow) :=
  rows.mergeSort (fun a b => decide (b.2.monetary ≤ a.2.monetary))

/-- Running pass over the sorted labelled rows: `acc` is the cumulative sum
so far, `total` the grand total of `Monetary` and `n` the row count.  The
rank percentage comes from the row's pre-sort index label, not its sorted
position: line 208 assigns `100 * (pd.Series(range(n)) + 1) / n`, a fresh
zero-indexed Series that pandas aligns to `rfm_sorted`'s index labels, so
the row labelled `lab` receives `100 * (lab + 1) / n`
(`dashboard.py` lines 206-208). -/
def paretoAux (total : Rat) (n : Nat) :
    List (Nat × RFMRow) → Rat → List ParetoRow
  | [], _ => []
  | (lab, r) :: rs, acc =>
    let cum := acc + r.monetary
    { customerId := r.customerId
      monetary := r.monetary
      cumulativeRevenue := cum
      revenuePct := 100 * cum / total
      customerRankPct := 100 * ((lab : Rat) + 1) / (n : Rat) }
      :: paretoAux total n rs cum

/-- The Q9 Pareto computation: sort the labelled RFM rows by `Monetary`
descending, take the cumulative sum in sorted order, and scale to
percentages of total revenue; the customer-rank percentages are
index-aligned as described at `paretoAux` (`dashboard.py` lines 205-208). -/
def computePareto (rfm : List RFMRow) : List ParetoRow :=
  let sorted := sortByMonetaryDesc (withIndexLabels rfm)
  paretoAux ((sorted.map (fun p => p.2.monetary)).sum) sorted.length sorted 0

/-- `df_sales.groupby(Country)[TotalAmount].sum()`: per-country revenue,
one pair per distinct country (`dashboard.py` line 127). -/
def countrySales (txns : List CleanedTransaction) : List (String × Rat) :=
  ((txns.map (fun t => t.country)).dedup).map (fun c =>
    (c, ((txns.filter (fun t => t.country == c)).map (fun t => t.totalAmount)).sum))

/-- `days_order` (`dashboard.py` line 197): six fixed weekday names,
Saturday deliberately absent. -/
def days_order : List String :=
  ["Monday", "Tuesday", "Wednesday", "Thursday", "Friday", "Sunday"]

/-- `groupby(...).mean()` of `TotalAmount`: `none` models the NaN that
`reindex` inserts for a key with no rows. -/
def meanTotalAmount (txns : List CleanedTransaction) : Option Rat :=
  if txns.isEmpty then none
  else some (((txns.map (fun t => t.totalAmount)).sum) / (txns.length : Rat))

/-- Q10: mean `TotalAmount` grouped by `DayOfWeek`, reindexed to the six
keys of `days_order` in that order (`dashboard.py` lines 197-198). -/
def weekdaySales (filtered : List CleanedTransaction) :
    List (String × Option Rat) :=
  days_order.map (fun d =>
    (d, meanTotalAmount (filtered.filter (fun t => t.dayOfWeek == d))))

/-- The chart datasets the verified claims mention, as one record. -/
structure DashboardCharts where
  kpis : Rat × Nat × Rat
  countrySalesQ3 : List (String × Rat)
  weekdaySalesQ10 : List (String × Option Rat)
  paretoQ9 : List ParetoRow
deriving Repr

/-- One recomputation pass of the dashboard after a filter change: apply the
country filter, then build the chart data.  As in the script, the Q3 map is
built from the unfiltered `df_sales` (`dashboard.py` line 127) while the
other charts use `df_filtered`. -/
def dashboardRun (sales rets : List CleanedTransaction)
    (selected : List String) : DashboardCharts :=
  let filtered := filterByCountry sales rets selected
  { kpis := computeKPIs filtered.1
    countrySalesQ3 := countrySales sales
    weekdaySalesQ10 := weekdaySales filtered.1
    paretoQ9 := computePareto (computeRFM filtered.1) }

/-! ### Sample data

Concrete rows used by the witness theorems; they reproduce the worked
example of the specification (two rows of customer 100, one row with an
absent customer id). -/

def wRow1 : RawRecord :=
  { invoice := "1", stockCode := "S1", description := "widget", quantity := 2,
    price := 10, invoiceDate := 0, customerId := some 100,
    country := "United Kingdom" }

def wRow2 : RawRecord :=
  { invoice := "1", stockCode := "S1", description := "widget", quantity := -1,
    price := 10, invoiceDate := 86400, customerId := some 100,
    country := "United Kingdom" }

def wRow3 : RawRecord :=
  { invoice := "2", stockCode := "S2", description := "gadget", quantity := 3,
    price := 5, invoiceDate := 172800, customerId := none,
    country := "United Kingdom" }

def wRows : List RawRecord := [wRow1, wRow2, wRow3]

/-! ### Helper lemmas -/

/-- Membership in the cleaned frame: exactly the rows whose customer id is
present, cleaned. -/
lemma mem_cleanRecords {rows : List RawRecord} {t : CleanedTransaction} :
    t ∈ cleanRecords rows ↔
      ∃ r ∈ rows, ∃ c, r.customerId = some c ∧ t = cleanRow r c := by
  simp only [cleanRecords, List.mem_filterMap, Option.map_eq_some']
  constructor
  · rintro ⟨r, hr, c, hc, rfl⟩
    exact ⟨r, hr, c, hc, rfl⟩
  · rintro ⟨r, hr, c, hc, rfl⟩
    exact ⟨r, hr, c, hc, rfl⟩

/-- Unfolding of `cleanRecords` on a cons cell, by the head's customer id. -/
lemma cleanRecords_cons (r : RawRecord) (rs : List RawRecord) :
    cleanRecords (r :: rs) = (match r.customerId with
      | none => cleanRecords rs
      | some c => cleanRow r c :: cleanRecords rs) := by
  cases h : r.customerId <;> simp [cleanRecords, List.filterMap_cons, h]

/-- Dropping the null-customer rows first changes nothing: `cleanRecords`
already ignores them. -/
lemma cleanRecords_filter_isSome (rows : List RawRecord) :
    cleanRecords (rows.filter (fun r => r.customerId.isSome)) =
      cleanRecords rows := by
  induction rows with
  | nil => rfl
  | cons r rs ih =>
    cases h : r.customerId with
    | none =>
      have hf : (r :: rs).filter (fun x => x.customerId.isSome) =
          rs.filter (fun x => x.customerId.isSome) := by
        simp [List.filter_cons, h]
      rw [hf, ih, cleanRecords_cons, h]
    | some c =>
      have hf : (r :: rs).filter (fun x => x.customerId.isSome) =
          r :: rs.filter (fun x => x.customerId.isSome) := by
        simp [List.filter_cons, h]
      rw [hf, cleanRecords_cons, h, cleanRecords_cons, h, ih]

/-- Sales frame of the sample load: the single positive-quantity row of
customer 100. -/
def wSales : List CleanedTransaction := (load_data (some wRows)).1

/-- Every invoice date of a nonempty frame is at most `maxInvoiceDate`,
which is itself attained by some row. -/
lemma maxInvoiceDate_spec (txns : List CleanedTransaction) (h : txns ≠ []) :
    (∃ t ∈ txns, t.invoiceDate = maxInvoiceDate txns) ∧
    ∀ t ∈ txns, t.invoiceDate ≤ maxInvoiceDate txns := by
  have hmap : txns.map (fun t => t.invoiceDate) ≠ [] := by simpa using h
  cases hm : (txns.map (fun t => t.invoiceDate)).maximum with
  | bot => exact absurd (List.maximum_eq_none.1 hm) hmap
  | coe m =>
    have hmax : maxInvoiceDate txns = m := by
      simp only [maxInvoiceDate, hm]
      rfl
    constructor
    · obtain ⟨t, ht, hteq⟩ := List.mem_map.1 (List.maximum_mem hm)
      exact ⟨t, ht, by rw [hteq, hmax]⟩
    · intro t ht
      rw [hmax]
      exact List.le_maximum_of_mem (List.mem_map_of_mem _ ht) hm

/-! ### Claims -/

/-- C1: `load_data` partitions the cleaned records by the sign of
`Quantity`: a cleaned record with positive quantity lands in Sales and not
among the negative-quantity rows; one with negative quantity lands (with its
quantity replaced by its positive absolute value) in Returns and not in
Sales; a zero-quantity record lands in neither; and every row of the Returns
partition has positive quantity. -/
theorem C1_partition (rows : List RawRecord) (t : CleanedTransaction)
    (ht : t ∈ cleanRecords rows) :
    (0 < t.quantity → t ∈ salesOf rows ∧ t ∉ returnsRawOf rows) ∧
    (t.quantity < 0 → absQuantity t ∈ returnsOf rows ∧ t ∉ salesOf rows ∧
      (absQuantity t).quantity = -t.quantity ∧ 0 < (absQuantity t).quantity) ∧
    (t.quantity = 0 → t ∉ salesOf rows ∧ t ∉ returnsRawOf rows) ∧
    (∀ u ∈ returnsOf rows, 0 < u.quantity) := by
  refine ⟨fun hq => ⟨?_, ?_⟩, fun hq => ⟨?_, ?_, ?_, ?_⟩, fun hq => ⟨?_, ?_⟩, ?_⟩
  · simpa [salesOf, List.mem_filter] using ⟨ht, hq⟩
  · simp only [returnsRawOf, List.mem_filter, decide_eq_true_eq]
    rintro ⟨-, h⟩
    omega
  · exact List.mem_map_of_mem absQuantity
      (by simpa [returnsRawOf, List.mem_filter] using ⟨ht, hq⟩)
  · simp only [salesOf, List.mem_filter, decide_eq_true_eq]
    rintro ⟨-, h⟩
    omega
  · show ((t.quantity.natAbs : Int)) = -t.quantity
    omega
  · show (0 : Int) < (t.quantity.natAbs : Int)
    omega
  · simp only [salesOf, List.mem_filter, decide_eq_true_eq]
    rintro ⟨-, h⟩
    omega
  · simp only [returnsRawOf, List.mem_filter, decide_eq_true_eq]
    rintro ⟨-, h⟩
    omega
  · intro u hu
    simp only [returnsOf, List.mem_map] at hu
    obtain ⟨v, hv, rfl⟩ := hu
    simp only [returnsRawOf, List.mem_filter, decide_eq_true_eq] at hv
    show (0 : Int) < (v.quantity.natAbs : Int)
    omega

/-- Witness for C1 at the sample data: the cleaned negative-quantity row of
`wRows` lands, sign-flipped, in Returns and not in Sales. -/
theorem C1_partition_witness :
    absQuantity (cleanRow wRow2 100) ∈ returnsOf wRows ∧
    cleanRow wRow2 100 ∉ salesOf wRows ∧
    (absQuantity (cleanRow wRow2 100)).quantity = -(cleanRow wRow2 100).quantity ∧
    0 < (absQuantity (cleanRow wRow2 100)).quantity :=
  (C1_partition wRows (cleanRow wRow2 100)
      (mem_cleanRecords.2 ⟨wRow2, by simp [wRows], 100, rfl, rfl⟩)).2.1
    (by decide)

/-- C2: raw rows with an absent (null) customer identifier produce no
cleaned transaction: both output partitions are unchanged when such rows are
removed beforehand, and every transaction in either partition originates
from a raw row whose customer id was present (its normalized form becoming
the transaction's `customerId`). -/
theorem C2_null_customer_dropped (rows : List RawRecord) :
    salesOf rows = salesOf (rows.filter (fun r => r.customerId.isSome)) ∧
    returnsOf rows = returnsOf (rows.filter (fun r => r.customerId.isSome)) ∧
    ∀ t ∈ (load_data (some rows)).1 ++ (load_data (some rows)).2,
      ∃ r ∈ rows, ∃ c, r.customerId = some c ∧
        t.customerId = toString (ratTruncToInt c) := by
  refine ⟨by simp [salesOf, cleanRecords_filter_isSome],
          by simp [returnsOf, returnsRawOf, cleanRecords_filter_isSome], ?_⟩
  intro t hmem
  rcases List.mem_append.1 hmem with h | h
  · simp only [load_data, salesOf, List.mem_filter] at h
    obtain ⟨r, hr, c, hc, rfl⟩ := mem_cleanRecords.1 h.1
    exact ⟨r, hr, c, hc, rfl⟩
  · simp only [load_data, returnsOf, returnsRawOf, List.mem_map,
      List.mem_filter] at h
    obtain ⟨v, ⟨hv, -⟩, rfl⟩ := h
    obtain ⟨r, hr, c, hc, rfl⟩ := mem_cleanRecords.1 hv
    exact ⟨r, hr, c, hc, rfl⟩

/-- C3: the KPI block computes `totalRevenue` as the sum of `TotalAmount`,
`totalOrders` as the number of distinct invoice identifiers, and
`avgOrderValue` as their quotient guarded to `0` when there are no orders;
on an empty sales frame all three are `0` and no division by zero occurs. -/
theorem C3_kpi_guard (sales : List CleanedTransaction) :
    (computeKPIs sales).1 = (sales.map (fun t => t.totalAmount)).sum ∧
    (computeKPIs sales).2.1 = (sales.map (fun t => t.invoice)).toFinset.card ∧
    (totalOrders sales ≠ 0 →
      (computeKPIs sales).2.2 = totalRevenue sales / (totalOrders sales : Rat)) ∧
    (totalOrders sales = 0 → (computeKPIs sales).2.2 = 0) ∧
    computeKPIs [] = (0, 0, 0) := by
  refine ⟨rfl, (List.card_toFinset _).symm, ?_, ?_, ?_⟩
  · intro h
    have hpos : 0 < totalOrders sales := Nat.pos_of_ne_zero h
    simp [computeKPIs, avgOrderValue, hpos]
  · intro h
    simp [computeKPIs, avgOrderValue, h]
  · rfl

/-- C4: on a nonempty sales frame, each RFM row's Recency is the whole-day
distance from that customer's latest invoice to the snapshot date (latest
invoice of the whole frame plus one day), and it is at least 1, hence
non-negative. -/
theorem C4_recency (sales : List CleanedTransaction) (hne : sales ≠ [])
    (row : RFMRow) (hrow : row ∈ computeRFM sales) :
    row.recency =
      timedeltaDays (snapshotDate sales -
        maxInvoiceDate (custTxns sales row.customerId)) ∧
    1 ≤ row.recency ∧ 0 ≤ row.recency := by
  obtain ⟨c, hc, rfl⟩ := List.mem_map.1 hrow
  have hcm : ∃ t ∈ sales, t.customerId = c := by
    simpa [customersOf, List.mem_dedup] using List.mem_dedup.1 hc
  obtain ⟨t0, ht0, ht0c⟩ := hcm
  have ht0' : t0 ∈ custTxns sales c := by
    simp [custTxns, List.mem_filter, ht0, ht0c]
  have hcne : custTxns sales c ≠ [] := by
    intro h
    rw [h] at ht0'
    exact absurd ht0' (List.not_mem_nil t0)
  obtain ⟨⟨tm, htm, htmeq⟩, -⟩ := maxInvoiceDate_spec _ hcne
  have hsub : tm ∈ sales := (List.mem_filter.1 htm).1
  have hle : maxInvoiceDate (custTxns sales c) ≤ maxInvoiceDate sales := by
    rw [← htmeq]
    exact (maxInvoiceDate_spec sales hne).2 tm hsub
  have h1 : 1 ≤ (rfmRowFor sales c).recency := by
    show 1 ≤ timedeltaDays (snapshotDate sales - maxInvoiceDate (custTxns sales c))
    unfold timedeltaDays snapshotDate
    rw [Int.fdiv_eq_ediv _ (by norm_num)]
    exact (Int.le_ediv_iff_mul_le (by norm_num)).2 (by omega)
  exact ⟨rfl, h1, by omega⟩

/-- Witness for C4 at the sample data: customer 100's Recency is one day. -/
theorem C4_recency_witness :
    (rfmRowFor wSales "100").recency =
      timedeltaDays (snapshotDate wSales -
        maxInvoiceDate (custTxns wSales "100")) ∧
    1 ≤ (rfmRowFor wSales "100").recency ∧
    0 ≤ (rfmRowFor wSales "100").recency :=
  C4_recency wSales (by decide) (rfmRowFor wSales "100")
    (List.mem_map_of_mem _ (by decide : "100" ∈ customersOf wSales))

/-- C7: the country filter is the identity both for an empty selection and
for the selection holding every distinct country present in the data. -/
theorem C7_filter_identity (sales rets : List CleanedTransaction) :
    filterByCountry sales rets [] = (sales, rets) ∧
    filterByCountry sales rets
        (((sales ++ rets).map (fun t => t.country)).dedup) = (sales, rets) := by
  refine ⟨rfl, ?_⟩
  cases hE : (((sales ++ rets).map (fun t => t.country)).dedup).isEmpty with
  | true =>
    simp only [filterByCountry, hE, ite_true]
  | false =>
    simp only [filterByCountry, hE, Bool.false_eq_true, if_false]
    have hs : sales.filter
        (fun t => (((sales ++ rets).map (fun x => x.country)).dedup).contains t.country)
        = sales := by
      apply List.filter_eq_self.2
      intro t ht
      exact List.elem_iff.2 (List.mem_dedup.2
        (List.mem_map_of_mem _ (List.mem_append_left _ ht)))
    have hr : rets.filter
        (fun t => (((sales ++ rets).map (fun x => x.country)).dedup).contains t.country)
        = rets := by
      apply List.filter_eq_self.2
      intro t ht
      exact List.elem_iff.2 (List.mem_dedup.2
        (List.mem_map_of_mem _ (List.mem_append_right _ ht)))
    rw [hs, hr]

/-- C10: the Q10 weekday aggregate always has exactly the six keys
Monday..Friday, Sunday in that order; Saturday is not among its keys, and
removing all Saturday records from the input leaves the aggregate
unchanged. -/
theorem C10_weekday (filtered : List CleanedTransaction) :
    (weekdaySales filtered).map Prod.fst = days_order ∧
    "Saturday" ∉ (weekdaySales filtered).map Prod.fst ∧
    weekdaySales (filtered.filter (fun t => t.dayOfWeek ≠ "Saturday")) =
      weekdaySales filtered := by
  have hfst : (weekdaySales filtered).map Prod.fst = days_order := rfl
  refine ⟨hfst, ?_, ?_⟩
  · rw [hfst]
    decide
  · unfold weekdaySales
    apply List.map_congr_left
    intro d hd
    have hds : d ≠ "Saturday" := by
      fin_cases hd <;> decide
    refine congrArg (fun l => (d, meanTotalAmount l)) ?_
    rw [List.filter_filter]
    apply List.filter_congr
    intro t _
    cases hq : (t.dayOfWeek == d) with
    | false => simp [hq]
    | true =>
      have hteq : t.dayOfWeek = d := eq_of_beq hq
      simp [hq, hteq, hds]

/-- C8: when the data source cannot be read, `load_data` returns two empty
frames instead of raising, the caller halts (the Sales frame is empty), and
there is no partial result: every load either fails to the empty pair or
yields the full cleaned partition of its rows. -/
theorem C8_data_unavailable :
    load_data none = ([], []) ∧
    haltsAfterLoad (load_data none) = true ∧
    ∀ input, load_data input = ([], []) ∨
      ∃ rows, input = some rows ∧
        load_data input = (salesOf rows, returnsOf rows) := by
  refine ⟨rfl, rfl, fun input => ?_⟩
  cases input with
  | none => exact Or.inl rfl
  | some rows => exact Or.inr ⟨rows, rfl, rfl⟩

/-- C9: the Q3 per-country aggregate is computed from the unfiltered Sales
frame, so two dashboard runs that differ only in the selected countries
produce the same Q3 map data. -/
theorem C9_q3_filter_independent (sales rets : List CleanedTransaction)
    (s1 s2 : List String) :
    (dashboardRun sales rets s1).countrySalesQ3 =
      (dashboardRun sales rets s2).countrySalesQ3 := rfl

/-- The running Pareto pass yields one output row per input row. -/
lemma paretoAux_length (total : Rat) (n : Nat) (l : List (Nat × RFMRow))
    (acc : Rat) : (paretoAux total n l acc).length = l.length := by
  induction l generalizing acc with
  | nil => rfl
  | cons p rs ih =>
    obtain ⟨lab, r⟩ := p
    simp [paretoAux, ih]

/-- The Pareto frame has one row per RFM row. -/
lemma length_computePareto (rfm : List RFMRow) :
    (computePareto rfm).length = rfm.length := by
  rw [computePareto, paretoAux_length, sortByMonetaryDesc,
    List.length_mergeSort, withIndexLabels, List.enum_length]

/-- Sorting the labelled rows preserves their length. -/
lemma sorted_length (rfm : List RFMRow) :
    (sortByMonetaryDesc (withIndexLabels rfm)).length = rfm.length := by
  rw [sortByMonetaryDesc, List.length_mergeSort, withIndexLabels,
    List.enum_length]

/-- Attaching index labels does not change the Monetary column. -/
lemma enum_map_monetary (rfm : List RFMRow) :
    (withIndexLabels rfm).map (fun p => p.2.monetary) =
      rfm.map (fun r => r.monetary) := by
  rw [withIndexLabels,
    show (fun p : Nat × RFMRow => p.2.monetary) =
      (fun r : RFMRow => r.monetary) ∘ Prod.snd from rfl,
    ← List.map_map, List.enum_map_snd]

/-- The total Monetary over the sorted labelled rows is the total over the
RFM frame. -/
lemma sorted_sum_monetary (rfm : List RFMRow) :
    ((sortByMonetaryDesc (withIndexLabels rfm)).map
        (fun p => p.2.monetary)).sum
      = (rfm.map (fun r => r.monetary)).sum := by
  rw [← enum_map_monetary, sortByMonetaryDesc]
  exact List.Perm.sum_eq (List.Perm.map _ (List.mergeSort_perm _ _))

/-- Closed form of the running Pareto pass: the k-th output row carries the
cumulative sum of the first k+1 monetary values on top of the accumulator,
scaled to percentages, and the rank percentage built from the row's index
label. -/
lemma paretoAux_get (total : Rat) (n : Nat) (l : List (Nat × RFMRow))
    (acc : Rat) (k : Nat) (hk : k < (paretoAux total n l acc).length)
    (hk' : k < l.length) :
    (paretoAux total n l acc).get ⟨k, hk⟩ =
      { customerId := (l.get ⟨k, hk'⟩).2.customerId
        monetary := (l.get ⟨k, hk'⟩).2.monetary
        cumulativeRevenue :=
          acc + ((l.take (k+1)).map (fun p => p.2.monetary)).sum
        revenuePct :=
          100 * (acc + ((l.take (k+1)).map (fun p => p.2.monetary)).sum)
            / total
        customerRankPct :=
          100 * (((l.get ⟨k, hk'⟩).1 : Rat) + 1) / (n : Rat) } := by
  induction l generalizing acc k with
  | nil => exact absurd hk' (Nat.not_lt_zero k)
  | cons p rs ih =>
    obtain ⟨lab, r⟩ := p
    cases k with
    | zero =>
      simp [paretoAux, List.take, List.map, List.sum_cons]
    | succ k' =>
      have hk2 : k' < (paretoAux total n rs (acc + r.monetary)).length := by
        rw [paretoAux_length]
        exact Nat.lt_of_succ_lt_succ hk'
      have hk2' : k' < rs.length := Nat.lt_of_succ_lt_succ hk'
      show (paretoAux total n rs (acc + r.monetary)).get ⟨k', hk2⟩ = _
      rw [ih (acc + r.monetary) k' hk2 hk2']
      have hsum : (acc + r.monetary) +
          ((rs.take (k'+1)).map (fun p => p.2.monetary)).sum =
          acc + ((((lab, r) :: rs).take (k'+1+1)).map
            (fun p => p.2.monetary)).sum := by
        simp [List.take, List.sum_cons]
        ring
      simp only [List.get_cons_succ]
      rw [hsum]

/-- A one-customer RFM frame used by the Pareto witnesses. -/
def wRFM : List RFMRow :=
  [{ customerId := "A", recency := 1, frequency := 1, monetary := 10 }]

/-- C5 (amended): the row at 0-based sorted position i of the Pareto frame
has `revenuePct` equal to 100 times the running sum of the first i+1 sorted
Monetary values over the total Monetary, while its `customerRankPct` is
`100 * (L+1) / n` for `L` the row's pre-sort index label (the rank Series
of line 208 is aligned by index label), not `100 * (i+1) / n`. -/
theorem C5_pareto (rfm : List RFMRow) (i : Nat)
    (hi : i < (computePareto rfm).length) :
    ((computePareto rfm).get ⟨i, hi⟩).customerRankPct
        = 100 * ((((sortByMonetaryDesc (withIndexLabels rfm)).get
            ⟨i, by rwa [sorted_length, ← length_computePareto]⟩).1 : Rat) + 1)
          / (rfm.length : Rat) ∧
    ((computePareto rfm).get ⟨i, hi⟩).revenuePct
        = 100 * (((sortByMonetaryDesc (withIndexLabels rfm)).take (i+1)).map
              (fun p => p.2.monetary)).sum
            / ((rfm.map (fun r => r.monetary)).sum) := by
  have hi' : i < (sortByMonetaryDesc (withIndexLabels rfm)).length := by
    rwa [sorted_length, ← length_computePareto]
  have hEq : (computePareto rfm).get ⟨i, hi⟩ =
      { customerId :=
          ((sortByMonetaryDesc (withIndexLabels rfm)).get ⟨i, hi'⟩).2.customerId
        monetary :=
          ((sortByMonetaryDesc (withIndexLabels rfm)).get ⟨i, hi'⟩).2.monetary
        cumulativeRevenue :=
          0 + (((sortByMonetaryDesc (withIndexLabels rfm)).take (i+1)).map
            (fun p => p.2.monetary)).sum
        revenuePct :=
          100 * (0 + (((sortByMonetaryDesc (withIndexLabels rfm)).take
              (i+1)).map (fun p => p.2.monetary)).sum)
            / ((sortByMonetaryDesc (withIndexLabels rfm)).map
                (fun p => p.2.monetary)).sum
        customerRankPct :=
          100 * ((((sortByMonetaryDesc (withIndexLabels rfm)).get
              ⟨i, hi'⟩).1 : Rat) + 1)
            / ((sortByMonetaryDesc (withIndexLabels rfm)).length : Rat) } :=
    paretoAux_get _ _ _ _ _ hi hi'
  rw [hEq]
  constructor
  · show 100 * ((((sortByMonetaryDesc (withIndexLabels rfm)).get
          ⟨i, hi'⟩).1 : Rat) + 1)
        / ((sortByMonetaryDesc (withIndexLabels rfm)).length : Rat) = _
    have hlen : ((sortByMonetaryDesc (withIndexLabels rfm)).length : Rat)
        = (rfm.length : Rat) := by rw [sorted_length]
    rw [hlen]
  · show 100 * (0 + (((sortByMonetaryDesc (withIndexLabels rfm)).take
          (i+1)).map (fun p => p.2.monetary)).sum)
        / ((sortByMonetaryDesc (withIndexLabels rfm)).map
            (fun p => p.2.monetary)).sum = _
    rw [zero_add, sorted_sum_monetary]

/-- Witness for C5 at the one-row RFM frame: the single customer, labelled
0, carries rank 100% and 100% of revenue. -/
theorem C5_pareto_witness :
    ((computePareto wRFM).get
        ⟨0, by rw [length_computePareto]; decide⟩).customerRankPct
        = 100 * ((((sortByMonetaryDesc (withIndexLabels wRFM)).get
            ⟨0, by rw [sorted_length]; decide⟩).1 : Rat) + 1)
          / (wRFM.length : Rat) ∧
    ((computePareto wRFM).get
        ⟨0, by rw [length_computePareto]; decide⟩).revenuePct
        = 100 * (((sortByMonetaryDesc (withIndexLabels wRFM)).take (0+1)).map
              (fun p => p.2.monetary)).sum
            / ((wRFM.map (fun r => r.monetary)).sum) :=
  C5_pareto wRFM 0 (by rw [length_computePareto]; decide)

/-- RFM row of customer 100: the smaller Monetary, pre-sort label 0. -/
def cexRFMa : RFMRow :=
  { customerId := "100", recency := 1, frequency := 1, monetary := 5 }

/-- RFM row of customer 200: the larger Monetary, pre-sort label 1. -/
def cexRFMb : RFMRow :=
  { customerId := "200", recency := 1, frequency := 1, monetary := 10 }

/-- A two-customer RFM frame whose Monetary order reverses the frame
order, so sorting permutes the index labels. -/
def cexRFM : List RFMRow := [cexRFMa, cexRFMb]

/-- Evaluation of the Pareto computation on `cexRFM`: the sorted first row
(label 1) receives rank 100 and 200/3 percent of revenue, the sorted second
row (label 0) receives rank 50 and 100 percent of revenue. -/
lemma computePareto_cexRFM :
    computePareto cexRFM =
      [{ customerId := "200", monetary := 10, cumulativeRevenue := 10,
         revenuePct := 200/3, customerRankPct := 100 },
       { customerId := "100", monetary := 5, cumulativeRevenue := 15,
         revenuePct := 100, customerRankPct := 50 }] := by
  have hsort : sortByMonetaryDesc (withIndexLabels cexRFM)
      = [(1, cexRFMb), (0, cexRFMa)] := by
    norm_num [sortByMonetaryDesc, withIndexLabels, cexRFM, List.enum_cons,
      List.enumFrom, List.mergeSort, List.merge, cexRFMa, cexRFMb]
  simp only [computePareto, hsort]
  norm_num [paretoAux, cexRFMa, cexRFMb, ParetoRow.mk.injEq]

/-- C5 as stated fails: in `computePareto cexRFM` the first sorted row
(1-indexed position 1 of 2) carries `customerRankPct = 100`, not
`100 * 1 / 2`, because pandas aligns the fresh rank Series to the pre-sort
index labels. -/
theorem C5_counterexample :
    ((computePareto cexRFM).get
        ⟨0, by rw [length_computePareto]; decide⟩).customerRankPct
      ≠ 100 * ((0 : Rat) + 1) / (cexRFM.length : Rat) ∧
    ((computePareto cexRFM).get
        ⟨0, by rw [length_computePareto]; decide⟩).customerRankPct = 100 := by
  have hget : ((computePareto cexRFM).get
      ⟨0, by rw [length_computePareto]; decide⟩).customerRankPct = 100 := by
    rw [List.get_of_eq computePareto_cexRFM]
    rfl
  refine ⟨?_, hget⟩
  rw [hget]
  norm_num [cexRFM]

/-- C6 (amended): when every customer's Monetary is non-negative and the
total Monetary is positive, the Pareto `revenuePct` sequence is
non-decreasing in the sorted frame's row order and the frame's last row
shows 100% of revenue. -/
theorem C6_amended (rfm : List RFMRow)
    (hpos : ∀ r ∈ rfm, 0 ≤ r.monetary)
    (htot : 0 < (rfm.map (fun r => r.monetary)).sum) :
    List.Chain' (fun a b => a ≤ b)
      ((computePareto rfm).map (fun p => p.revenuePct)) ∧
    ∃ h : computePareto rfm ≠ [],
      ((computePareto rfm).getLast h).revenuePct = 100 := by
  have hsum : ((sortByMonetaryDesc (withIndexLabels rfm)).map
      (fun p => p.2.monetary)).sum = (rfm.map (fun r => r.monetary)).sum :=
    sorted_sum_monetary rfm
  have htot' : 0 < ((sortByMonetaryDesc (withIndexLabels rfm)).map
      (fun p => p.2.monetary)).sum := by
    rw [hsum]; exact htot
  have hTne : ((sortByMonetaryDesc (withIndexLabels rfm)).map
      (fun p => p.2.monetary)).sum ≠ 0 := ne_of_gt htot'
  have hposS : ∀ p ∈ sortByMonetaryDesc (withIndexLabels rfm),
      0 ≤ p.2.monetary := by
    intro p hp
    apply hpos
    have hmem : p ∈ withIndexLabels rfm := by
      rw [sortByMonetaryDesc] at hp
      exact List.mem_mergeSort.1 hp
    have : p.2 ∈ (withIndexLabels rfm).map Prod.snd :=
      List.mem_map_of_mem _ hmem
    rwa [withIndexLabels, List.enum_map_snd] at this
  have hlenP : (computePareto rfm).length =
      (sortByMonetaryDesc (withIndexLabels rfm)).length := by
    rw [length_computePareto, sorted_length]
  have hrfmne : rfm ≠ [] := by
    rintro rfl
    simp at htot
  have hne : computePareto rfm ≠ [] := by
    intro h
    apply hrfmne
    have hl := length_computePareto rfm
    rw [h] at hl
    exact List.length_eq_zero.1 hl.symm
  have hgetP : ∀ (k : Nat) (hk : k < (computePareto rfm).length)
      (hk' : k < (sortByMonetaryDesc (withIndexLabels rfm)).length),
      (computePareto rfm).get ⟨k, hk⟩ =
      { customerId := ((sortByMonetaryDesc (withIndexLabels rfm)).get
          ⟨k, hk'⟩).2.customerId
        monetary := ((sortByMonetaryDesc (withIndexLabels rfm)).get
          ⟨k, hk'⟩).2.monetary
        cumulativeRevenue :=
          0 + (((sortByMonetaryDesc (withIndexLabels rfm)).take (k+1)).map
            (fun p => p.2.monetary)).sum
        revenuePct :=
          100 * (0 + (((sortByMonetaryDesc (withIndexLabels rfm)).take
              (k+1)).map (fun p => p.2.monetary)).sum)
            / ((sortByMonetaryDesc (withIndexLabels rfm)).map
                (fun p => p.2.monetary)).sum
        customerRankPct :=
          100 * ((((sortByMonetaryDesc (withIndexLabels rfm)).get
              ⟨k, hk'⟩).1 : Rat) + 1)
            / ((sortByMonetaryDesc (withIndexLabels rfm)).length : Rat) } :=
    fun k hk hk' => paretoAux_get _ _ _ _ _ hk hk'
  have hSle : ∀ (k : Nat),
      k + 1 < (sortByMonetaryDesc (withIndexLabels rfm)).length →
      (((sortByMonetaryDesc (withIndexLabels rfm)).take (k+1)).map
        (fun p => p.2.monetary)).sum ≤
      (((sortByMonetaryDesc (withIndexLabels rfm)).take (k+2)).map
        (fun p => p.2.monetary)).sum := by
    intro k hk1
    rw [List.map_take, List.map_take]
    have hkL : k + 1 < ((sortByMonetaryDesc (withIndexLabels rfm)).map
        (fun p => p.2.monetary)).length := by
      rwa [List.length_map]
    rw [List.sum_take_succ _ (k+1) hkL]
    have hmem : ((sortByMonetaryDesc (withIndexLabels rfm)).map
        (fun p => p.2.monetary))[k+1] ∈
        (sortByMonetaryDesc (withIndexLabels rfm)).map
          (fun p => p.2.monetary) :=
      List.getElem_mem _
    obtain ⟨p, hp, hpEq⟩ := List.mem_map.1 hmem
    have : 0 ≤ ((sortByMonetaryDesc (withIndexLabels rfm)).map
        (fun p => p.2.monetary))[k+1] := by
      rw [← hpEq]
      exact hposS p hp
    linarith
  constructor
  · rw [List.chain'_iff_get]
    intro j hj
    rw [List.length_map] at hj
    have hj1 : j < (computePareto rfm).length := by omega
    have hj2 : j + 1 < (computePareto rfm).length := by omega
    have hj1' : j < (sortByMonetaryDesc (withIndexLabels rfm)).length := by
      rw [← hlenP]; exact hj1
    have hj2' : j + 1 < (sortByMonetaryDesc (withIndexLabels rfm)).length := by
      rw [← hlenP]; exact hj2
    rw [List.get_map, List.get_map]
    rw [hgetP j hj1 hj1', hgetP (j+1) hj2 hj2']
    show 100 * (0 + _) / _ ≤ 100 * (0 + _) / _
    rw [zero_add, zero_add]
    have hstep := hSle j hj2'
    gcongr
  · refine ⟨hne, ?_⟩
    have hL : 0 < (computePareto rfm).length := List.length_pos.2 hne
    rw [List.getLast_eq_get]
    have hk' : (computePareto rfm).length - 1 <
        (sortByMonetaryDesc (withIndexLabels rfm)).length := by
      omega
    rw [hgetP _ _ hk']
    show 100 * (0 + (((sortByMonetaryDesc (withIndexLabels rfm)).take
        ((computePareto rfm).length - 1 + 1)).map
          (fun p => p.2.monetary)).sum) / _ = 100
    have htake : (computePareto rfm).length - 1 + 1 =
        (sortByMonetaryDesc (withIndexLabels rfm)).length := by omega
    rw [zero_add, htake, List.take_length, mul_div_assoc, div_self hTne,
      mul_one]

/-- Witness for the amended C6 at the one-row RFM frame. -/
theorem C6_witness :
    List.Chain' (fun a b => a ≤ b)
      ((computePareto wRFM).map (fun p => p.revenuePct)) ∧
    ∃ h : computePareto wRFM ≠ [],
      ((computePareto wRFM).getLast h).revenuePct = 100 :=
  C6_amended wRFM (by decide)
    (by norm_num [wRFM, List.map_cons, List.map_nil, List.sum_cons,
      List.sum_nil])

/-- A sale of customer A with positive total amount. -/
def cexSaleA : CleanedTransaction :=
  { invoice := "10", stockCode := "S1", description := "widget", quantity := 1,
    price := 10, invoiceDate := 0, customerId := "A",
    country := "United Kingdom", totalAmount := 10, hour := 12,
    dayOfWeek := "Thursday" }

/-- A positive-quantity sale of customer B whose unit price is negative
(nothing in the pipeline excludes it), so its total amount is negative. -/
def cexSaleB : CleanedTransaction :=
  { invoice := "11", stockCode := "S2", description := "adjustment", quantity := 1,
    price := -5, invoiceDate := 0, customerId := "B",
    country := "United Kingdom", totalAmount := -5, hour := 12,
    dayOfWeek := "Thursday" }

/-- A sales frame on which the Pareto curve is not monotone. -/
def cexSales : List CleanedTransaction := [cexSaleA, cexSaleB]

/-- The RFM row of customer A in `cexSales`. -/
def cexRowA : RFMRow :=
  { customerId := "A", recency := 1, frequency := 1, monetary := 10 }

/-- The RFM row of customer B in `cexSales`: negative Monetary. -/
def cexRowB : RFMRow :=
  { customerId := "B", recency := 1, frequency := 1, monetary := -5 }

/-- C6 as stated fails twice over: on `cexSales` the RFM result is
non-empty yet the Pareto `revenuePct` sequence is [200, 100], which
decreases; and on `cexRFM`, where every Monetary is non-negative, the row
with `customerRankPct = 100` carries `revenuePct = 200/3`, not 100, because
the rank percentages are aligned by pre-sort index label. -/
theorem C6_counterexample :
    (computeRFM cexSales ≠ [] ∧
      ¬ List.Chain' (fun a b => a ≤ b)
        ((computePareto (computeRFM cexSales)).map (fun p => p.revenuePct))) ∧
    ((∀ r ∈ cexRFM, 0 ≤ r.monetary) ∧
      ((computePareto cexRFM).get
          ⟨0, by rw [length_computePareto]; decide⟩).customerRankPct = 100 ∧
      ((computePareto cexRFM).get
          ⟨0, by rw [length_computePareto]; decide⟩).revenuePct ≠ 100) := by
  constructor
  · have hA : custTxns cexSales "A" = [cexSaleA] := by decide
    have hB : custTxns cexSales "B" = [cexSaleB] := by decide
    have hrowA : rfmRowFor cexSales "A" = cexRowA := by
      have hrec : timedeltaDays (snapshotDate cexSales -
          maxInvoiceDate (custTxns cexSales "A")) = 1 := by decide
      have hfreq : ((custTxns cexSales "A").map
          (fun t => t.invoice)).dedup.length = 1 := by decide
      have hmon : ((custTxns cexSales "A").map
          (fun t => t.totalAmount)).sum = 10 := by
        rw [hA]
        norm_num [cexSaleA]
      simp [rfmRowFor, cexRowA, RFMRow.mk.injEq, hmon, hrec, hfreq]
    have hrowB : rfmRowFor cexSales "B" = cexRowB := by
      have hrec : timedeltaDays (snapshotDate cexSales -
          maxInvoiceDate (custTxns cexSales "B")) = 1 := by decide
      have hfreq : ((custTxns cexSales "B").map
          (fun t => t.invoice)).dedup.length = 1 := by decide
      have hmon : ((custTxns cexSales "B").map
          (fun t => t.totalAmount)).sum = -5 := by
        rw [hB]
        norm_num [cexSaleB]
      simp [rfmRowFor, cexRowB, RFMRow.mk.injEq, hmon, hrec, hfreq]
    have hcust : customersOf cexSales = ["A", "B"] := by decide
    have hrfm : computeRFM cexSales = [cexRowA, cexRowB] := by
      rw [computeRFM, hcust]
      simp [hrowA, hrowB]
    have hsort : sortByMonetaryDesc (withIndexLabels [cexRowA, cexRowB])
        = [(0, cexRowA), (1, cexRowB)] := by
      norm_num [sortByMonetaryDesc, withIndexLabels, List.enum_cons,
        List.enumFrom, List.mergeSort, List.merge, cexRowA, cexRowB]
    have hrev : (computePareto (computeRFM cexSales)).map
        (fun p => p.revenuePct) = [200, 100] := by
      rw [hrfm]
      simp only [computePareto, hsort]
      norm_num [paretoAux, cexRowA, cexRowB]
    refine ⟨by rw [hrfm]; simp, ?_⟩
    rw [hrev]
    simp only [List.chain'_cons, List.chain'_singleton, and_true]
    norm_num
  · refine ⟨by decide, ?_, ?_⟩
    · rw [List.get_of_eq computePareto_cexRFM]
      rfl
    · rw [List.get_of_eq computePareto_cexRFM]
      show ¬ ((200/3 : Rat) = 100)
      norm_num
